import Mathlib

/-!
Verification of the CornBreeder genomic-selection simulator.

The UI layer (`src/App.tsx`, `src/components/GenomeVisualizer.tsx`,
`src/components/Scene3D.tsx`) is embedded directly from the TypeScript
source.  The genetics engine (`utils/geneticsEngine.ts`), the constant
table (`constants.ts`) and the advisory service (`services/geminiService.ts`)
are not in the repository snapshot; those definitions are modelled from the
specification, as indicated by their doc comments.  Randomness is made
explicit: every stochastic operation receives an injectable source of draws
and the theorems quantify over all possible draws.
-/

/-- Diploid allele pair at one locus: presence of the dominant allele
inherited from each parent (`genome.diploid` entries in
`src/components/GenomeVisualizer.tsx`). -/
structure AllelePair where
  maternal : Bool
  paternal : Bool
deriving DecidableEq, Repr

/-- Dosage derived from a diploid pair:
`(maternal?1:0) + (paternal?1:0)` (spec section 3). -/
def dosagePair (a : AllelePair) : ℕ :=
  (if a.maternal then 1 else 0) + (if a.paternal then 1 else 0)

/-- A genome: the diploid pair sequence and the derived dosage sequence
(`plant.genome.diploid` and `plant.genome.loci` in
`src/components/GenomeVisualizer.tsx`). -/
structure Genome where
  diploid : List AllelePair
  loci : List ℕ
deriving DecidableEq, Repr

/-- Genome constructor: the dosage sequence is always derived from the
diploid sequence, which is how every genome is materialized. -/
def mkGenome (d : List AllelePair) : Genome :=
  { diploid := d, loci := d.map dosagePair }

/-- Modelled from the spec: `NUM_LOCI` lives in the missing `constants.ts`;
spec section 3 fixes the locus index range 0-23. -/
def NUM_LOCI : ℕ := 24

/-- `POPULATION_SIZE` from the missing `constants.ts`; `src/components/Scene3D.tsx`
lays the field out as an 8x8 grid "for 64 plants". -/
def POPULATION_SIZE : ℕ := 64

/-- Modelled from the spec: yield trait group (Chr1 in
`src/components/GenomeVisualizer.tsx`), first third of the locus range. -/
def YIELD_LOCI : List ℕ := [0, 1, 2, 3, 4, 5, 6, 7]

/-- Modelled from the spec: resistance trait group (Chr2), middle third. -/
def RESISTANCE_LOCI : List ℕ := [8, 9, 10, 11, 12, 13, 14, 15]

/-- Modelled from the spec: height trait group (Chr3), last third. -/
def HEIGHT_LOCI : List ℕ := [16, 17, 18, 19, 20, 21, 22, 23]

/-- Trade-off loci 8-9 (Yield vs Resistance), as documented in the legend of
`src/components/GenomeVisualizer.tsx`. -/
def PLEIOTROPIC_YIELD_RESISTANCE : List ℕ := [8, 9]

/-- Positive-link loci 20-21 (Height to Yield), as documented in the legend
of `src/components/GenomeVisualizer.tsx`. -/
def PLEIOTROPIC_HEIGHT_YIELD : List ℕ := [20, 21]

/-- Modelled from the spec: per-locus additive effect weight.  The exact
constant is unspecified (section 9 open question); a fixed positive constant
is chosen. -/
def LOCUS_EFFECT : ℚ := 2

/-- Modelled from the spec: trade-off coefficient scaling the negative
cross-trait contribution of trade-off loci. -/
def TRADEOFF_COEFF : ℚ := 1

/-- Modelled from the spec: link coefficient scaling the positive
cross-trait contribution of positive-link loci. -/
def LINK_COEFF : ℚ := 1

/-- Modelled from the spec: initial environmental variance from the missing
`constants.ts`; consistent with the initial sunny weather in `src/App.tsx`
(variance below 1.5). -/
def INITIAL_ENV_VARIANCE : ℚ := 1

/-- Weighted sum of dosages over a locus list. -/
def lociSum (L : List ℕ) (w : ℚ) (d : ℕ → ℕ) : ℚ :=
  (L.map (fun i => w * (d i : ℚ))).sum

/-- Modelled from the spec (section 4.3): yield GEBV = additive effects over
the yield group, minus the trade-off contribution of loci 8-9, plus the
positive-link contribution of loci 20-21. -/
def gebvYield (d : ℕ → ℕ) : ℚ :=
  lociSum YIELD_LOCI LOCUS_EFFECT d
    - lociSum PLEIOTROPIC_YIELD_RESISTANCE TRADEOFF_COEFF d
    + lociSum PLEIOTROPIC_HEIGHT_YIELD LINK_COEFF d

/-- Modelled from the spec (section 4.3): resistance GEBV = additive effects
over the resistance group. -/
def gebvResistance (d : ℕ → ℕ) : ℚ :=
  lociSum RESISTANCE_LOCI LOCUS_EFFECT d

/-- Modelled from the spec (section 4.3): height GEBV = additive effects
over the height group. -/
def gebvHeight (d : ℕ → ℕ) : ℚ :=
  lociSum HEIGHT_LOCI LOCUS_EFFECT d

/-- Per-trait continuous values (used for both phenotype and GEBV). -/
structure TraitValues where
  yield : ℚ
  resistance : ℚ
  height : ℚ
deriving DecidableEq, Repr

/-- Dosage lookup for a genome (0 outside the stored range). -/
def genomeDosage (g : Genome) : ℕ → ℕ :=
  fun i => g.loci.getD i 0

/-- Modelled from the spec: breeding value is genotype-only (section 4.3). -/
def breedingValueOf (g : Genome) : TraitValues :=
  { yield := gebvYield (genomeDosage g)
    resistance := gebvResistance (genomeDosage g)
    height := gebvHeight (genomeDosage g) }

/-- Modelled from the spec (section 4.3): phenotype = breeding value plus an
environmental deviation whose spread scales with the environmental-variance
scalar; the per-trait random deviate is supplied explicitly. -/
def phenotypeOf (g : Genome) (envVariance : ℚ) (noise : TraitValues) : TraitValues :=
  { yield := (breedingValueOf g).yield + envVariance * noise.yield
    resistance := (breedingValueOf g).resistance + envVariance * noise.resistance
    height := (breedingValueOf g).height + envVariance * noise.height }

/-- A plant: identity, genome and the derived trait values
(spec section 3; consumed throughout `src/App.tsx`). -/
structure Plant where
  id : String
  genome : Genome
  phenotype : TraitValues
  breedingValue : TraitValues
deriving DecidableEq, Repr

/-- Plant constructor: derived fields are computed from the genome. -/
def mkPlant (id : String) (g : Genome) (envVariance : ℚ) (noise : TraitValues) : Plant :=
  { id := id, genome := g
    phenotype := phenotypeOf g envVariance noise
    breedingValue := breedingValueOf g }

/-- Count of heterozygous loci, from `src/components/GenomeVisualizer.tsx`
line 22: `diploid.filter(a => a.maternal !== a.paternal).length`. -/
def hetCount (d : List AllelePair) : ℕ :=
  (d.filter (fun a => a.maternal != a.paternal)).length

/-- Heterozygosity fraction, from `src/components/GenomeVisualizer.tsx`
lines 24-25 (there scaled to a percentage).  The division is undefined on an
empty genome (`NaN` in the source), embedded as `none`. -/
def hetFraction (d : List AllelePair) : Option ℚ :=
  if d.length = 0 then none
  else some ((hetCount d : ℚ) / (d.length : ℚ))

/-- Modelled from the spec (section 4.5): crossing two parent genomes.  For
each locus the maternal gamete allele is one of parent A's two alleles and
the paternal gamete allele one of parent B's, the strand picks being
supplied by the injectable random source (linkage only biases the
distribution of the picks, which the source abstracts).  Fails on a
mismatched locus count. -/
def cross (gA gB : Genome) (choice : ℕ → Bool × Bool) : Except String Genome :=
  if gA.diploid.length = gB.diploid.length then
    Except.ok (mkGenome ((List.range gA.diploid.length).map (fun i =>
      let pa := gA.diploid.getD i { maternal := false, paternal := false }
      let pb := gB.diploid.getD i { maternal := false, paternal := false }
      { maternal := if (choice i).1 then pa.maternal else pa.paternal
        paternal := if (choice i).2 then pb.maternal else pb.paternal })))
  else Except.error "cross: mismatched locus count"

/-- Injectable random source for founder creation: per plant and locus the
maternal/paternal allele presence draw, and per plant the environmental
deviates. -/
structure InitRand where
  allele : ℕ → ℕ → Bool × Bool
  noise : ℕ → TraitValues

/-- Modelled from the spec (section 4.4): founder population of fixed size
`POPULATION_SIZE`; each genome draws both alleles per locus from the allele
source, trait values are computed with the given environmental variance, and
ids are stamped with generation 1. -/
def createInitialPopulation (rnd : InitRand) (envVariance : ℚ) : List Plant :=
  (List.range POPULATION_SIZE).map (fun idx =>
    mkPlant ("F1-" ++ toString idx)
      (mkGenome ((List.range NUM_LOCI).map (fun i =>
        { maternal := (rnd.allele idx i).1, paternal := (rnd.allele idx i).2 })))
      envVariance (rnd.noise idx))

/-- Injectable random source for generation advancement: per offspring the
parent-pair draw, per offspring and locus the strand picks, and per
offspring the environmental deviates. -/
structure RandSource where
  pairPick : ℕ → ℕ × ℕ
  strandChoice : ℕ → ℕ → Bool × Bool
  noise : ℕ → TraitValues

/-- Placeholder plant used only as the `getD` default during parent
indexing; never selected when the parent list is non-empty. -/
def dummyPlant : Plant :=
  mkPlant "none" (mkGenome []) 0 { yield := 0, resistance := 0, height := 0 }

/-- Modelled from the spec (section 4.6): an unordered pair of distinct
parents, chosen by the injectable draw (the two indices are reduced so that
they always name two different list positions when at least two parents are
present). -/
def pickParents (parents : List Plant) (pick : ℕ × ℕ) : Plant × Plant :=
  let n := parents.length
  let i := pick.1 % n
  let j0 := pick.2 % (n - 1)
  let j := if i ≤ j0 then j0 + 1 else j0
  (parents.getD i dummyPlant, parents.getD j dummyPlant)

/-- Modelled from the spec (section 4.6): rejects fewer than 2 parents,
otherwise produces exactly `POPULATION_SIZE` offspring, each from one cross
of a drawn parent pair, with trait values computed at the generation's
environmental variance and ids stamped with the new generation number.
Within the engine all parent genomes share the fixed locus count, so the
cross never fails; the embedding supplies an empty genome in that dead
branch to stay total. -/
def breedNextGeneration (parents : List Plant) (generation : ℕ) (envVariance : ℚ)
    (rnd : RandSource) : Except String (List Plant) :=
  if parents.length < 2 then
    Except.error "breedNextGeneration: at least 2 parents required"
  else
    Except.ok ((List.range POPULATION_SIZE).map (fun k =>
      let pq := pickParents parents (rnd.pairPick k)
      let g := match cross pq.1.genome pq.2.genome (rnd.strandChoice k) with
        | Except.ok g => g
        | Except.error _ => mkGenome []
      mkPlant ("F" ++ toString (generation + 1) ++ "-" ++ toString k)
        g envVariance (rnd.noise k)))

/-- Per-generation snapshot; field names follow their use in `src/App.tsx`
(`meanYield`, `meanResistance`, `meanHeight`). -/
structure PopulationStats where
  generation : ℕ
  meanYield : ℚ
  meanResistance : ℚ
  meanHeight : ℚ
deriving DecidableEq, Repr

/-- Modelled from the spec (section 4.7): per-trait phenotype means tagged
with the generation number; fails on an empty population. -/
def calculateStats (pop : List Plant) (generation : ℕ) : Except String PopulationStats :=
  if pop.length = 0 then Except.error "calculateStats: empty population"
  else
    Except.ok
      { generation := generation
        meanYield := (pop.map (fun p => p.phenotype.yield)).sum / (pop.length : ℚ)
        meanResistance := (pop.map (fun p => p.phenotype.resistance)).sum / (pop.length : ℚ)
        meanHeight := (pop.map (fun p => p.phenotype.height)).sum / (pop.length : ℚ) }

/-- Textual scenario with a numeric environmental-impact scalar, as consumed
by `advanceGeneration` in `src/App.tsx` (`description`, `envImpact`). -/
structure ScenarioInfo where
  description : String
  envImpact : ℚ
deriving Repr

/-- Modelled from the spec (section 7): the static fallback scenario used
when the external scenario service fails. -/
def defaultScenarioInfo : ScenarioInfo :=
  { description := "Normal Conditions", envImpact := INITIAL_ENV_VARIANCE }

/-- One round of external advisory calls, abstracted as the outcomes the
two service invocations would produce (error = network/service failure). -/
structure ExternalServices where
  scenarioCall : Except String ScenarioInfo
  analysisCall : Except String String

/-- Modelled from the spec (sections 6-7): `geminiService.generateScenario`
is not in the snapshot; per the spec it is best-effort and absorbs its own
failure, falling back to the default scenario instead of raising. -/
def generateScenario (sv : ExternalServices) (_nextGeneration : ℕ) : ScenarioInfo :=
  match sv.scenarioCall with
  | Except.ok s => s
  | Except.error _ => defaultScenarioInfo

/-- Modelled from the spec (section 6): `geminiService.getGeneticistAnalysis`
is not in the snapshot; it may fail, and `src/App.tsx` catches that failure
after the genetics state has already been committed. -/
def getGeneticistAnalysis (sv : ExternalServices) (_history : List PopulationStats)
    (_generation : ℕ) : Except String String :=
  sv.analysisCall

/-- The fallback analysis message set by the catch block of
`advanceGeneration` in `src/App.tsx`. -/
def analysisFallbackMsg : String :=
  "Analysis unavailable. Continue with phenotypic selection."

/-- The application state held by the React component in `src/App.tsx`
(the simulation-relevant `useState` cells). -/
structure AppState where
  generation : ℕ
  population : List Plant
  history : List PopulationStats
  selectedIds : Finset String
  selectionIntensity : ℚ
  envVariance : ℚ
  genomicSelectionEnabled : Bool
  analysisMsg : String
  scenario : String
  lastSelectedPlant : Option Plant

/-- The selected-parent list: `population.filter(p => selectedIds.has(p.id))`
(`src/App.tsx` line 120). -/
def selectedParents (st : AppState) : List Plant :=
  st.population.filter (fun p => decide (p.id ∈ st.selectedIds))

/-- Initial state set up by the mount effect of `src/App.tsx` (lines 40-47):
founder population, its generation-1 stats as the whole history. -/
def initState (rnd : InitRand) : AppState :=
  let pop := createInitialPopulation rnd INITIAL_ENV_VARIANCE
  { generation := 1
    population := pop
    history := match calculateStats pop 1 with
      | Except.ok s => [s]
      | Except.error _ => []
    selectedIds := ∅
    selectionIntensity := 0.2
    envVariance := INITIAL_ENV_VARIANCE
    genomicSelectionEnabled := false
    analysisMsg := "Initialize the field to begin."
    scenario := "Normal Conditions"
    lastSelectedPlant := none }

/-- `handlePlantClick` from `src/App.tsx` lines 57-68: remember the clicked
plant if found, then toggle its id in the selection set. -/
def handlePlantClick (st : AppState) (id : String) : AppState :=
  let st0 := match st.population.find? (fun p => p.id == id) with
    | some p => { st with lastSelectedPlant := some p }
    | none => st
  if id ∈ st0.selectedIds then
    { st0 with selectedIds := st0.selectedIds.erase id }
  else
    { st0 with selectedIds := insert id st0.selectedIds }

/-- The four auto-selection criteria of `autoSelectByTrait`
(`src/App.tsx` line 71). -/
inductive SelTrait where
  | yield
  | resistance
  | height
  | optimum
deriving DecidableEq, Repr

/-- The Smith-Hazel style selection index of the `optimum` branch
(`src/App.tsx` lines 79-86). -/
def optimumIndex (gs : Bool) (p : Plant) : ℚ :=
  if gs then
    p.breedingValue.yield * 0.5 + p.breedingValue.resistance * 0.3
      + (p.breedingValue.height / 3) * 0.2
  else
    p.phenotype.yield * 0.5 + p.phenotype.resistance * 0.3
      + (p.phenotype.height / 3) * 0.2

/-- The height criterion value (`src/App.tsx` line 91). -/
def heightValue (gs : Bool) (p : Plant) : ℚ :=
  if gs then p.breedingValue.height else p.phenotype.height

/-- The yield criterion value (`src/App.tsx` line 95, `trait = 'yield'`). -/
def yieldValue (gs : Bool) (p : Plant) : ℚ :=
  if gs then p.breedingValue.yield else p.phenotype.yield

/-- The resistance criterion value (`src/App.tsx` line 95,
`trait = 'resistance'`). -/
def resistanceValue (gs : Bool) (p : Plant) : ℚ :=
  if gs then p.breedingValue.resistance else p.phenotype.resistance

/-- `autoSelectByTrait` from `src/App.tsx` lines 71-101: sort a copy of the
population by the criterion (descending for yield, resistance and the
weighted index; ascending for height, the dwarf selection), then replace
the selection with the ids of the first `ceil(POPULATION_SIZE ×
selectionIntensity)` plants. -/
def autoSelectByTrait (st : AppState) (t : SelTrait) : AppState :=
  let count := ((POPULATION_SIZE : ℚ) * st.selectionIntensity).ceil.toNat
  let gs := st.genomicSelectionEnabled
  let sorted : List Plant := match t with
    | SelTrait.optimum =>
        st.population.mergeSort (fun a b => decide (optimumIndex gs b ≤ optimumIndex gs a))
    | SelTrait.height =>
        st.population.mergeSort (fun a b => decide (heightValue gs a ≤ heightValue gs b))
    | SelTrait.yield =>
        st.population.mergeSort (fun a b => decide (yieldValue gs b ≤ yieldValue gs a))
    | SelTrait.resistance =>
        st.population.mergeSort (fun a b => decide (resistanceValue gs b ≤ resistanceValue gs a))
  { st with selectedIds := ((sorted.take count).map (fun p => p.id)).toFinset }

/-- `advanceGeneration` from `src/App.tsx` lines 110-152: guard on fewer
than 2 selected ids; otherwise obtain the scenario (best-effort), breed the
next generation, compute its stats, commit population/history/generation/
variance and clear the selection, then attempt the narrative analysis,
falling back to a static message if that external call fails. -/
def advanceGeneration (st : AppState) (sv : ExternalServices) (rnd : RandSource) : AppState :=
  if st.selectedIds.card < 2 then st
  else
    let sc := generateScenario sv (st.generation + 1)
    match breedNextGeneration (selectedParents st) st.generation sc.envImpact rnd with
    | Except.error _ =>
        { st with scenario := sc.description, analysisMsg := analysisFallbackMsg }
    | Except.ok nextGen =>
      match calculateStats nextGen (st.generation + 1) with
      | Except.error _ =>
          { st with scenario := sc.description, analysisMsg := analysisFallbackMsg }
      | Except.ok stats =>
        let st1 := { st with
          population := nextGen
          history := st.history ++ [stats]
          generation := st.generation + 1
          envVariance := sc.envImpact
          selectedIds := (∅ : Finset String)
          lastSelectedPlant := none
          scenario := sc.description }
        match getGeneticistAnalysis sv st1.history (st.generation + 1) with
        | Except.ok msg => { st1 with analysisMsg := msg }
        | Except.error _ => { st1 with analysisMsg := analysisFallbackMsg }

/-! ### Helper lemmas -/

theorem dosagePair_le_two (a : AllelePair) : dosagePair a ≤ 2 := by
  cases a with
  | mk m p => cases m <;> cases p <;> decide

/-- The two genome representations agree: the dosage sequence is the map of
the pair dosage over the diploid sequence, lengths match, and every stored
dosage is the pair dosage and lies in `{0,1,2}`. -/
def genomeDosageOk (g : Genome) : Prop :=
  g.loci = g.diploid.map dosagePair ∧
  g.loci.length = g.diploid.length ∧
  ∀ i, i < g.diploid.length →
    g.loci.getD i 0 = dosagePair (g.diploid.getD i { maternal := false, paternal := false }) ∧
    g.loci.getD i 0 ≤ 2

theorem mkGenome_dosageOk (d : List AllelePair) : genomeDosageOk (mkGenome d) := by
  refine ⟨rfl, by simp [mkGenome], ?_⟩
  intro i hi
  have h1 : i < (d.map dosagePair).length := by simpa using hi
  have hi2 : i < d.length := hi
  have hloci : (mkGenome d).loci = d.map dosagePair := rfl
  have hdip : (mkGenome d).diploid = d := rfl
  rw [hloci, hdip, List.getD_eq_getElem _ _ h1, List.getD_eq_getElem _ _ hi2, List.getElem_map]
  exact ⟨rfl, dosagePair_le_two _⟩

theorem cross_ok_shape (gA gB : Genome) (c : ℕ → Bool × Bool) (g : Genome)
    (h : cross gA gB c = Except.ok g) : ∃ d, g = mkGenome d := by
  rw [cross] at h
  split at h
  · injection h with h2
    exact ⟨_, h2.symm⟩
  · exact absurd h (by simp)

theorem crossFallback_dosageOk (gA gB : Genome) (c : ℕ → Bool × Bool) :
    genomeDosageOk (match cross gA gB c with
      | Except.ok g => g
      | Except.error _ => mkGenome []) := by
  cases h : cross gA gB c with
  | error e =>
    exact mkGenome_dosageOk []
  | ok g =>
    obtain ⟨d, rfl⟩ := cross_ok_shape gA gB c g h
    exact mkGenome_dosageOk d

/-! ### C1 -/

/-- C1: for every plant in every population produced by the initializer or
the crossing engine, the derived dosage sequence is exactly the per-locus
pair dosage `(maternal?1:0) + (paternal?1:0)`, each value lies in `{0,1,2}`,
and the dosage and diploid sequences never diverge. -/
theorem dosage_never_diverges :
    (∀ rnd envVariance, ∀ p ∈ createInitialPopulation rnd envVariance,
      genomeDosageOk p.genome) ∧
    (∀ parents generation envVariance rnd pop,
      breedNextGeneration parents generation envVariance rnd = Except.ok pop →
      ∀ p ∈ pop, genomeDosageOk p.genome) := by
  constructor
  · intro rnd v p hp
    rw [createInitialPopulation, List.mem_map] at hp
    obtain ⟨idx, -, rfl⟩ := hp
    exact mkGenome_dosageOk _
  · intro parents gen v rnd pop hok p hp
    rw [breedNextGeneration] at hok
    split at hok
    · exact absurd hok (by simp)
    · injection hok with h
      subst h
      rw [List.mem_map] at hp
      obtain ⟨k, -, rfl⟩ := hp
      exact crossFallback_dosageOk _ _ _

/-- Deterministic random sources used by the concrete witnesses. -/
def cInit : InitRand :=
  { allele := fun _ _ => (true, false)
    noise := fun _ => { yield := 0, resistance := 0, height := 0 } }

def cRand : RandSource :=
  { pairPick := fun _ => (0, 1)
    strandChoice := fun _ _ => (true, true)
    noise := fun _ => { yield := 0, resistance := 0, height := 0 } }

/-- Witness for C1: the first founder of a concrete initial population has a
consistent dosage sequence. -/
theorem dosage_never_diverges_witness :
    genomeDosageOk ((createInitialPopulation cInit 1).get
      ⟨0, by simp [createInitialPopulation, POPULATION_SIZE]⟩).genome :=
  dosage_never_diverges.1 cInit 1 _ (List.get_mem _ 0 _)

/-! ### C2 -/

/-- C2: the breeding value of every trait is independent of the
environmental-variance input and of the random deviates (it is repeatable);
at variance 0 the phenotype equals the breeding value on every computation;
at positive variance two computations with different deviates can disagree. -/
theorem breedingValue_pure_phenotype_noisy :
    (∀ (id₁ id₂ : String) (g : Genome) (v₁ v₂ : ℚ) (n₁ n₂ : TraitValues),
      (mkPlant id₁ g v₁ n₁).breedingValue = (mkPlant id₂ g v₂ n₂).breedingValue) ∧
    (∀ (id : String) (g : Genome) (n : TraitValues),
      (mkPlant id g 0 n).phenotype = (mkPlant id g 0 n).breedingValue) ∧
    (∀ (g : Genome) (v : ℚ), 0 < v →
      ∃ n₁ n₂ : TraitValues, phenotypeOf g v n₁ ≠ phenotypeOf g v n₂) := by
  refine ⟨fun _ _ _ _ _ _ _ => rfl, ?_, ?_⟩
  · intro id g n
    simp [mkPlant, phenotypeOf]
  · intro g v hv
    refine ⟨{ yield := 0, resistance := 0, height := 0 },
            { yield := 1, resistance := 0, height := 0 }, ?_⟩
    intro h
    have h2 := congrArg TraitValues.yield h
    simp [phenotypeOf] at h2
    linarith

/-- Witness for C2: at a concrete genome and variance 1 two deviate draws
give different phenotypes. -/
theorem breedingValue_pure_phenotype_noisy_witness :
    ∃ n₁ n₂ : TraitValues,
      phenotypeOf (mkGenome []) 1 n₁ ≠ phenotypeOf (mkGenome []) 1 n₂ :=
  breedingValue_pure_phenotype_noisy.2.2 (mkGenome []) 1 (by norm_num)

/-! ### C6 -/

theorem hetCount_le_length (d : List AllelePair) : hetCount d ≤ d.length :=
  List.length_filter_le _ _

/-- C6: the reported heterozygosity is the fraction of loci whose maternal
and paternal alleles differ; it lies in `[0,1]`; a fully homozygous genome
reports 0; and the computation fails (no numeric result) exactly on the
empty genome. -/
theorem heterozygosity_fraction_correct :
    (∀ d : List AllelePair, d ≠ [] →
      hetFraction d = some ((hetCount d : ℚ) / (d.length : ℚ)) ∧
      ∀ q, hetFraction d = some q → 0 ≤ q ∧ q ≤ 1) ∧
    (∀ d : List AllelePair, d ≠ [] → (∀ a ∈ d, a.maternal = a.paternal) →
      hetFraction d = some 0) ∧
    hetFraction [] = none := by
  refine ⟨?_, ?_, rfl⟩
  · intro d hd
    have hlen : 0 < d.length := List.length_pos.mpr hd
    have hne : ¬d.length = 0 := by omega
    constructor
    · rw [hetFraction, if_neg hne]
    · intro q hq
      rw [hetFraction, if_neg hne, Option.some_inj] at hq
      subst hq
      constructor
      · apply div_nonneg
        · exact Nat.cast_nonneg _
        · exact Nat.cast_nonneg _
      · rw [div_le_one (by exact_mod_cast hlen)]
        exact_mod_cast hetCount_le_length d
  · intro d hd hhom
    have hne : ¬d.length = 0 := by
      have := List.length_pos.mpr hd
      omega
    have hzero : hetCount d = 0 := by
      rw [hetCount, List.length_eq_zero, List.filter_eq_nil_iff]
      intro a ha
      simp [hhom a ha]
    rw [hetFraction, if_neg hne, hzero]
    simp

/-- Witness for C6: a concrete heterozygous singleton genome reports the
exact fraction, and a concrete homozygous genome reports 0. -/
theorem heterozygosity_fraction_witness :
    hetFraction [{ maternal := true, paternal := false }] =
      some ((hetCount [{ maternal := true, paternal := false }] : ℚ) /
        (([{ maternal := true, paternal := false }] : List AllelePair).length : ℚ)) ∧
    hetFraction [{ maternal := true, paternal := true }] = some 0 :=
  ⟨(heterozygosity_fraction_correct.1 _ (by simp)).1,
   heterozygosity_fraction_correct.2.1 _ (by simp) (by intro a ha; simp at ha; rw [ha])⟩

/-! ### C5 -/

/-- C5: every population has the fixed cardinality `POPULATION_SIZE`: the
founder population exactly, and for every valid parent set the bred next
generation exactly. -/
theorem population_size_invariant :
    (∀ rnd envVariance,
      (createInitialPopulation rnd envVariance).length = POPULATION_SIZE) ∧
    (∀ parents generation envVariance rnd, 2 ≤ parents.length →
      ∃ pop, breedNextGeneration parents generation envVariance rnd = Except.ok pop ∧
        pop.length = POPULATION_SIZE) := by
  constructor
  · intro rnd v
    simp [createInitialPopulation]
  · intro parents gen v rnd h2
    rw [breedNextGeneration, if_neg (by omega)]
    exact ⟨_, rfl, by simp⟩

def pA : Plant := mkPlant "a" (mkGenome []) 0 { yield := 0, resistance := 0, height := 0 }

def pB : Plant := mkPlant "b" (mkGenome []) 0 { yield := 0, resistance := 0, height := 0 }

/-- Witness for C5: breeding from a concrete 2-parent set yields a
population of the fixed size. -/
theorem population_size_invariant_witness :
    ∃ pop, breedNextGeneration [pA, pB] 1 0 cRand = Except.ok pop ∧
      pop.length = POPULATION_SIZE :=
  population_size_invariant.2 [pA, pB] 1 0 cRand (by simp)

/-! ### C7 -/

theorem lociSum_cons (a : ℕ) (t : List ℕ) (w : ℚ) (d : ℕ → ℕ) :
    lociSum (a :: t) w d = w * (d a : ℚ) + lociSum t w d := by
  simp [lociSum]

/-- Changing the dosage at a single locus `i` shifts a weighted locus sum by
the weight times the multiplicity of `i` times the dosage change. -/
theorem lociSum_update (L : List ℕ) (w : ℚ) (d d' : ℕ → ℕ) (i : ℕ)
    (h : ∀ j, j ≠ i → d' j = d j) :
    lociSum L w d' = lociSum L w d + (L.count i : ℚ) * w * ((d' i : ℚ) - (d i : ℚ)) := by
  induction L with
  | nil => simp [lociSum]
  | cons a t ih =>
    rw [lociSum_cons, lociSum_cons, ih]
    by_cases ha : a = i
    · subst ha
      rw [List.count_cons_self]
      push_cast
      ring
    · rw [h a ha, List.count_cons_of_ne (by exact fun hc => ha hc.symm)]
      ring

/-- C7: raising the dosage at a trade-off locus (8 or 9), all other loci
fixed, never raises the yield and resistance breeding values together; and
raising the dosage at a positive-link locus (20 or 21) never lowers the
yield and height breeding values together. -/
theorem pleiotropy_directions :
    (∀ (d d' : ℕ → ℕ), ∀ i ∈ PLEIOTROPIC_YIELD_RESISTANCE,
      (∀ j, j ≠ i → d' j = d j) → d i < d' i →
      ¬(gebvYield d < gebvYield d' ∧ gebvResistance d < gebvResistance d')) ∧
    (∀ (d d' : ℕ → ℕ), ∀ i ∈ PLEIOTROPIC_HEIGHT_YIELD,
      (∀ j, j ≠ i → d' j = d j) → d i < d' i →
      ¬(gebvYield d' < gebvYield d ∧ gebvHeight d' < gebvHeight d)) := by
  constructor
  · intro d d' i hi h hlt hcon
    obtain ⟨hy, -⟩ := hcon
    simp [PLEIOTROPIC_YIELD_RESISTANCE] at hi
    have hΔ : (0 : ℚ) < (d' i : ℚ) - (d i : ℚ) := by
      have hc : (d i : ℚ) < (d' i : ℚ) := by exact_mod_cast hlt
      linarith
    have e1 := lociSum_update YIELD_LOCI LOCUS_EFFECT d d' i h
    have e2 := lociSum_update PLEIOTROPIC_YIELD_RESISTANCE TRADEOFF_COEFF d d' i h
    have e3 := lociSum_update PLEIOTROPIC_HEIGHT_YIELD LINK_COEFF d d' i h
    have hC : TRADEOFF_COEFF = 1 := rfl
    rcases hi with rfl | rfl
    · have c1 : YIELD_LOCI.count 8 = 0 := by decide
      have c2 : PLEIOTROPIC_YIELD_RESISTANCE.count 8 = 1 := by decide
      have c3 : PLEIOTROPIC_HEIGHT_YIELD.count 8 = 0 := by decide
      rw [c1] at e1
      rw [c2] at e2
      rw [c3] at e3
      rw [gebvYield, gebvYield, e1, e2, e3, hC] at hy
      push_cast at hy
      linarith
    · have c1 : YIELD_LOCI.count 9 = 0 := by decide
      have c2 : PLEIOTROPIC_YIELD_RESISTANCE.count 9 = 1 := by decide
      have c3 : PLEIOTROPIC_HEIGHT_YIELD.count 9 = 0 := by decide
      rw [c1] at e1
      rw [c2] at e2
      rw [c3] at e3
      rw [gebvYield, gebvYield, e1, e2, e3, hC] at hy
      push_cast at hy
      linarith
  · intro d d' i hi h hlt hcon
    obtain ⟨-, hh⟩ := hcon
    simp [PLEIOTROPIC_HEIGHT_YIELD] at hi
    have hΔ : (0 : ℚ) < (d' i : ℚ) - (d i : ℚ) := by
      have hc : (d i : ℚ) < (d' i : ℚ) := by exact_mod_cast hlt
      linarith
    have e := lociSum_update HEIGHT_LOCI LOCUS_EFFECT d d' i h
    have hW : LOCUS_EFFECT = 2 := rfl
    rcases hi with rfl | rfl
    · have c : HEIGHT_LOCI.count 20 = 1 := by decide
      rw [c] at e
      rw [gebvHeight, gebvHeight, e, hW] at hh
      push_cast at hh
      linarith
    · have c : HEIGHT_LOCI.count 21 = 1 := by decide
      rw [c] at e
      rw [gebvHeight, gebvHeight, e, hW] at hh
      push_cast at hh
      linarith

/-- Witness for C7: a concrete dosage bump at trade-off locus 8 does not
raise yield and resistance together, and one at link locus 20 does not
lower yield and height together. -/
theorem pleiotropy_directions_witness :
    (¬(gebvYield (fun _ => 0) < gebvYield (fun j => if j = 8 then 1 else 0) ∧
       gebvResistance (fun _ => 0) < gebvResistance (fun j => if j = 8 then 1 else 0))) ∧
    (¬(gebvYield (fun j => if j = 20 then 1 else 0) < gebvYield (fun _ => 0) ∧
       gebvHeight (fun j => if j = 20 then 1 else 0) < gebvHeight (fun _ => 0))) :=
  ⟨pleiotropy_directions.1 (fun _ => 0) (fun j => if j = 8 then 1 else 0) 8
      (by simp [PLEIOTROPIC_YIELD_RESISTANCE])
      (by intro j hj; simp [hj]) (by simp),
   pleiotropy_directions.2 (fun _ => 0) (fun j => if j = 20 then 1 else 0) 20
      (by simp [PLEIOTROPIC_HEIGHT_YIELD])
      (by intro j hj; simp [hj]) (by simp)⟩

/-! ### Generation-advancement machinery shared by C3, C4 and C8 -/

theorem breed_ok (parents : List Plant) (gen : ℕ) (v : ℚ) (rnd : RandSource)
    (h2 : 2 ≤ parents.length) :
    ∃ pop, breedNextGeneration parents gen v rnd = Except.ok pop ∧
      pop.length = POPULATION_SIZE := by
  rw [breedNextGeneration, if_neg (by omega)]
  exact ⟨_, rfl, by simp⟩

theorem stats_ok (pop : List Plant) (gen : ℕ) (h : pop.length ≠ 0) :
    ∃ stats, calculateStats pop gen = Except.ok stats ∧ stats.generation = gen := by
  rw [calculateStats, if_neg h]
  exact ⟨_, rfl, rfl⟩

/-- Shape of a successful advancement: with at least two selected ids and at
least two selected parents, breeding and stats both succeed and the state is
committed regardless of the outcome of either external advisory call. -/
theorem advanceGeneration_ok (st : AppState) (sv : ExternalServices) (rnd : RandSource)
    (hsel : 2 ≤ st.selectedIds.card) (hpar : 2 ≤ (selectedParents st).length) :
    ∃ nextGen stats msg,
      breedNextGeneration (selectedParents st) st.generation
        (generateScenario sv (st.generation + 1)).envImpact rnd = Except.ok nextGen ∧
      nextGen.length = POPULATION_SIZE ∧
      calculateStats nextGen (st.generation + 1) = Except.ok stats ∧
      stats.generation = st.generation + 1 ∧
      advanceGeneration st sv rnd = { st with
        population := nextGen
        history := st.history ++ [stats]
        generation := st.generation + 1
        envVariance := (generateScenario sv (st.generation + 1)).envImpact
        selectedIds := (∅ : Finset String)
        lastSelectedPlant := none
        scenario := (generateScenario sv (st.generation + 1)).description
        analysisMsg := msg } := by
  obtain ⟨nextGen, hb, hlen⟩ := breed_ok (selectedParents st) st.generation
    (generateScenario sv (st.generation + 1)).envImpact rnd hpar
  have hlen0 : nextGen.length ≠ 0 := by
    rw [hlen]
    simp [POPULATION_SIZE]
  obtain ⟨stats, hs, hsg⟩ := stats_ok nextGen (st.generation + 1) hlen0
  cases hA : sv.analysisCall with
  | ok m =>
    refine ⟨nextGen, stats, m, hb, hlen, hs, hsg, ?_⟩
    rw [advanceGeneration, if_neg (by omega)]
    simp only [hb, hs, getGeneticistAnalysis, hA]
  | error e =>
    refine ⟨nextGen, stats, analysisFallbackMsg, hb, hlen, hs, hsg, ?_⟩
    rw [advanceGeneration, if_neg (by omega)]
    simp only [hb, hs, getGeneticistAnalysis, hA]

/-! ### C3 -/

/-- C3: with at least 2 selected parents, advancement commits the new
population, the appended stats and the incremented generation counter for
every outcome of the two external advisory calls, including failures of
both. -/
theorem generation_advances_despite_service_failure (st : AppState)
    (sv : ExternalServices) (rnd : RandSource) (hsel : 2 ≤ st.selectedIds.card)
    (hpar : 2 ≤ (selectedParents st).length) :
    ∃ nextGen stats,
      breedNextGeneration (selectedParents st) st.generation
        (generateScenario sv (st.generation + 1)).envImpact rnd = Except.ok nextGen ∧
      calculateStats nextGen (st.generation + 1) = Except.ok stats ∧
      (advanceGeneration st sv rnd).population = nextGen ∧
      (advanceGeneration st sv rnd).history = st.history ++ [stats] ∧
      (advanceGeneration st sv rnd).generation = st.generation + 1 := by
  obtain ⟨nextGen, stats, msg, hb, hlen, hs, hsg, heq⟩ :=
    advanceGeneration_ok st sv rnd hsel hpar
  exact ⟨nextGen, stats, hb, hs, by rw [heq], by rw [heq], by rw [heq]⟩

/-- Concrete state and failing services used by the witnesses. -/
def stW : AppState :=
  { generation := 1
    population := [pA, pB]
    history := []
    selectedIds := {"a", "b"}
    selectionIntensity := 0.2
    envVariance := 1
    genomicSelectionEnabled := false
    analysisMsg := ""
    scenario := ""
    lastSelectedPlant := none }

def svFail : ExternalServices :=
  { scenarioCall := Except.error "offline", analysisCall := Except.error "offline" }

/-- Witness for C3: with both external services failing, a concrete
advancement still commits population, history and generation. -/
theorem generation_advances_despite_service_failure_witness :
    ∃ nextGen stats,
      breedNextGeneration (selectedParents stW) stW.generation
        (generateScenario svFail (stW.generation + 1)).envImpact cRand = Except.ok nextGen ∧
      calculateStats nextGen (stW.generation + 1) = Except.ok stats ∧
      (advanceGeneration stW svFail cRand).population = nextGen ∧
      (advanceGeneration stW svFail cRand).history = stW.history ++ [stats] ∧
      (advanceGeneration stW svFail cRand).generation = stW.generation + 1 :=
  generation_advances_despite_service_failure stW svFail cRand (by decide) (by decide)

/-! ### C4 -/

/-- C4: with fewer than 2 selected ids the advancement handler returns the
state entirely unchanged, and the engine itself rejects a parent list of
size under 2 with an explicit error. -/
theorem too_few_parents_rejected :
    (∀ st sv rnd, st.selectedIds.card < 2 → advanceGeneration st sv rnd = st) ∧
    (∀ parents generation envVariance rnd, parents.length < 2 →
      breedNextGeneration parents generation envVariance rnd =
        Except.error "breedNextGeneration: at least 2 parents required") := by
  constructor
  · intro st sv rnd h
    rw [advanceGeneration, if_pos h]
  · intro parents gen v rnd h
    rw [breedNextGeneration, if_pos h]

def stSmall : AppState := { stW with selectedIds := {"a"} }

/-- Witness for C4: a concrete 1-selection state is left untouched and a
concrete 1-parent list is rejected. -/
theorem too_few_parents_rejected_witness :
    advanceGeneration stSmall svFail cRand = stSmall ∧
    breedNextGeneration [pA] 1 0 cRand =
      Except.error "breedNextGeneration: at least 2 parents required" :=
  ⟨too_few_parents_rejected.1 stSmall svFail cRand (by decide),
   too_few_parents_rejected.2 [pA] 1 0 cRand (by decide)⟩

/-! ### C8 -/

/-- The history invariant: the stats sequence carries exactly the
generation numbers `1, 2, ..., generation`, in order. -/
def histOk (st : AppState) : Prop :=
  st.history.map (fun s => s.generation) =
    (List.range st.generation).map (fun k => k + 1)

/-- C8: the stats history is append-only.  The initial state satisfies the
history invariant; every successful advancement appends exactly one entry,
stamped with the incremented generation (one greater than the previous last
entry's), leaves every existing entry unchanged, and preserves the
invariant (ordered, one entry per generation). -/
theorem history_append_only :
    (∀ rnd, histOk (initState rnd)) ∧
    (∀ st sv rnd, 2 ≤ st.selectedIds.card → 2 ≤ (selectedParents st).length →
      ∃ stats,
        (advanceGeneration st sv rnd).history = st.history ++ [stats] ∧
        stats.generation = st.generation + 1 ∧
        (∀ i, i < st.history.length →
          (advanceGeneration st sv rnd).history[i]? = st.history[i]?) ∧
        (∀ last, st.history.getLast? = some last → histOk st →
          last.generation + 1 = stats.generation) ∧
        (histOk st → histOk (advanceGeneration st sv rnd))) := by
  constructor
  · intro rnd
    obtain ⟨stats, hs, hsg⟩ := stats_ok (createInitialPopulation rnd INITIAL_ENV_VARIANCE) 1
      (by simp [createInitialPopulation, POPULATION_SIZE])
    have hh : (initState rnd).history = [stats] := by
      simp only [initState]
      rw [hs]
    have hg : (initState rnd).generation = 1 := rfl
    rw [histOk, hh, hg]
    simp [hsg, List.range_succ]
  · intro st sv rnd hsel hpar
    obtain ⟨nextGen, stats, msg, hb, hlen, hs, hsg, heq⟩ :=
      advanceGeneration_ok st sv rnd hsel hpar
    have hhist : (advanceGeneration st sv rnd).history = st.history ++ [stats] := by
      rw [heq]
    have hgen : (advanceGeneration st sv rnd).generation = st.generation + 1 := by
      rw [heq]
    refine ⟨stats, hhist, hsg, ?_, ?_, ?_⟩
    · intro i hi
      rw [hhist, List.getElem?_append, if_pos hi]
    · intro last hlast hOk
      have h1 : (st.history.map (fun s => s.generation)).getLast? =
          some last.generation := by
        rw [List.getLast?_map, hlast]
        rfl
      rw [histOk] at hOk
      rw [hOk] at h1
      cases hn : st.generation with
      | zero =>
        rw [hn] at h1
        simp at h1
      | succ m =>
        rw [hn, List.range_succ, List.map_append] at h1
        simp only [List.map_cons, List.map_nil] at h1
        rw [List.getLast?_concat] at h1
        injection h1 with h3
        rw [hsg, hn]
        omega
    · intro hOk
      rw [histOk] at hOk
      rw [histOk, hhist, hgen, List.map_append, hOk, List.range_succ, List.map_append]
      simp [hsg]

/-- Witness for C8: a concrete advancement with both external services
failing appends exactly one correctly-stamped entry. -/
theorem history_append_only_witness :
    ∃ stats,
      (advanceGeneration stW svFail cRand).history = stW.history ++ [stats] ∧
      stats.generation = stW.generation + 1 ∧
      (∀ i, i < stW.history.length →
        (advanceGeneration stW svFail cRand).history[i]? = stW.history[i]?) ∧
      (∀ last, stW.history.getLast? = some last → histOk stW →
        last.generation + 1 = stats.generation) ∧
      (histOk stW → histOk (advanceGeneration stW svFail cRand)) :=
  history_append_only.2 stW svFail cRand (by decide) (by decide)

/-! ### C10 -/

/-- C10: one plant click toggles exactly the clicked id in the selection
set, leaves every other id's membership unchanged, and does not touch the
population, the stats history, the generation number or the environmental
variance. -/
theorem handlePlantClick_toggles (st : AppState) (id : String) :
    ((id ∈ st.selectedIds → id ∉ (handlePlantClick st id).selectedIds) ∧
     (id ∉ st.selectedIds → id ∈ (handlePlantClick st id).selectedIds)) ∧
    (∀ j, j ≠ id → (j ∈ (handlePlantClick st id).selectedIds ↔ j ∈ st.selectedIds)) ∧
    (handlePlantClick st id).population = st.population ∧
    (handlePlantClick st id).history = st.history ∧
    (handlePlantClick st id).generation = st.generation ∧
    (handlePlantClick st id).envVariance = st.envVariance := by
  have hsel : (handlePlantClick st id).selectedIds =
      if id ∈ st.selectedIds then st.selectedIds.erase id
      else insert id st.selectedIds := by
    rw [handlePlantClick]
    cases st.population.find? (fun p => p.id == id) with
    | none => split <;> rfl
    | some p => split <;> rfl
  have hframe : (handlePlantClick st id).population = st.population ∧
      (handlePlantClick st id).history = st.history ∧
      (handlePlantClick st id).generation = st.generation ∧
      (handlePlantClick st id).envVariance = st.envVariance := by
    rw [handlePlantClick]
    cases st.population.find? (fun p => p.id == id) <;>
      exact (by split <;> exact ⟨rfl, rfl, rfl, rfl⟩)
  refine ⟨⟨?_, ?_⟩, ?_, hframe.1, hframe.2.1, hframe.2.2.1, hframe.2.2.2⟩
  · intro h
    rw [hsel, if_pos h]
    exact Finset.not_mem_erase id st.selectedIds
  · intro h
    rw [hsel, if_neg h]
    exact Finset.mem_insert_self id st.selectedIds
  · intro j hj
    rw [hsel]
    by_cases h : id ∈ st.selectedIds
    · rw [if_pos h]
      simp [Finset.mem_erase, hj]
    · rw [if_neg h]
      simp [Finset.mem_insert, hj]

/-- Witness for C10: on a concrete state, clicking a selected id removes
it, clicking a fresh id adds it, and another id's membership is kept. -/
theorem handlePlantClick_toggles_witness :
    ("a" ∉ (handlePlantClick stW "a").selectedIds) ∧
    ("c" ∈ (handlePlantClick stW "c").selectedIds) ∧
    ("b" ∈ (handlePlantClick stW "a").selectedIds ↔ "b" ∈ stW.selectedIds) :=
  ⟨(handlePlantClick_toggles stW "a").1.1 (by decide),
   (handlePlantClick_toggles stW "c").1.2 (by decide),
   (handlePlantClick_toggles stW "a").2.1 "b" (by decide)⟩

/-! ### C9 -/

/-- The criterion value used by each `autoSelectByTrait` branch. -/
def selValue (gs : Bool) (t : SelTrait) (p : Plant) : ℚ :=
  match t with
  | SelTrait.yield => yieldValue gs p
  | SelTrait.resistance => resistanceValue gs p
  | SelTrait.height => heightValue gs p
  | SelTrait.optimum => optimumIndex gs p

/-- "p ranks at least as well as q" under criterion `t`: higher is better
for yield, resistance and the weighted index; lower is better for the dwarf
height selection. -/
def ranksAtLeast (gs : Bool) (t : SelTrait) (p q : Plant) : Prop :=
  match t with
  | SelTrait.height => selValue gs t p ≤ selValue gs t q
  | _ => selValue gs t q ≤ selValue gs t p

/-- Sorting then taking a prefix selects a set of the prefix size whose
members are all `le`-before every non-member, given unique ids. -/
theorem mergeSort_select_spec (pop : List Plant) (le : Plant → Plant → Bool)
    (count : ℕ)
    (htr : ∀ a b c, le a b = true → le b c = true → le a c = true)
    (hto : ∀ a b, (le a b || le b a) = true)
    (hnd : (pop.map (fun p => p.id)).Nodup)
    (hc : count ≤ pop.length) :
    (((pop.mergeSort le).take count).map (fun p => p.id)).toFinset.card = count ∧
    ∀ p ∈ pop, p.id ∈ (((pop.mergeSort le).take count).map (fun p => p.id)).toFinset →
      ∀ q ∈ pop, q.id ∉ (((pop.mergeSort le).take count).map (fun p => p.id)).toFinset →
        le p q = true := by
  have hperm : (pop.mergeSort le).Perm pop := List.mergeSort_perm pop le
  have hlen : (pop.mergeSort le).length = pop.length := List.length_mergeSort pop
  have hidnodup : ((pop.mergeSort le).map (fun p => p.id)).Nodup :=
    ((hperm.map (fun p => p.id)).nodup_iff).mpr hnd
  have htnd : (((pop.mergeSort le).take count).map (fun p => p.id)).Nodup :=
    List.Nodup.sublist
      (List.Sublist.map _ (List.take_sublist count (pop.mergeSort le))) hidnodup
  constructor
  · rw [List.toFinset_card_of_nodup htnd, List.length_map, List.length_take]
    omega
  · intro p hp hpin q hq hqout
    have hpin2 : p ∈ (pop.mergeSort le).take count := by
      rw [List.mem_toFinset, List.mem_map] at hpin
      obtain ⟨p2, hp2mem, hp2id⟩ := hpin
      have hp2pop : p2 ∈ pop :=
        hperm.mem_iff.mp ((List.take_sublist count (pop.mergeSort le)).subset hp2mem)
      have hpp : p2 = p := List.inj_on_of_nodup_map hnd hp2pop hp hp2id
      rwa [hpp] at hp2mem
    have hqdrop : q ∈ (pop.mergeSort le).drop count := by
      have hqs : q ∈ pop.mergeSort le := hperm.mem_iff.mpr hq
      have hsplit : q ∈ (pop.mergeSort le).take count ++ (pop.mergeSort le).drop count := by
        rw [List.take_append_drop]
        exact hqs
      rcases List.mem_append.mp hsplit with h | h
      · exact absurd (by rw [List.mem_toFinset, List.mem_map]; exact ⟨q, h, rfl⟩) hqout
      · exact h
    have hsorted : List.Pairwise (fun a b => le a b = true) (pop.mergeSort le) :=
      List.sorted_mergeSort htr hto pop
    rw [← List.take_append_drop count (pop.mergeSort le)] at hsorted
    exact (List.pairwise_append.mp hsorted).2.2 p hpin2 q hqdrop

/-- C9: `autoSelectByTrait` replaces the selection with exactly the ids of
the `ceil(POPULATION_SIZE × selectionIntensity)` plants ranked best under
the chosen criterion (breeding values when genomic selection is on,
phenotypes otherwise; higher better for yield, resistance and the weighted
index, lower better for height), touching nothing else of the state. -/
theorem autoSelectByTrait_selects_best (st : AppState) (t : SelTrait)
    (hnd : (st.population.map (fun p => p.id)).Nodup)
    (hc : ((POPULATION_SIZE : ℚ) * st.selectionIntensity).ceil.toNat ≤ st.population.length) :
    (autoSelectByTrait st t).selectedIds.card =
      ((POPULATION_SIZE : ℚ) * st.selectionIntensity).ceil.toNat ∧
    (∀ p ∈ st.population, p.id ∈ (autoSelectByTrait st t).selectedIds →
      ∀ q ∈ st.population, q.id ∉ (autoSelectByTrait st t).selectedIds →
        ranksAtLeast st.genomicSelectionEnabled t p q) ∧
    (autoSelectByTrait st t).population = st.population ∧
    (autoSelectByTrait st t).history = st.history ∧
    (autoSelectByTrait st t).generation = st.generation ∧
    (autoSelectByTrait st t).envVariance = st.envVariance := by
  cases t with
  | yield =>
    have hspec := mergeSort_select_spec st.population
      (fun a b => decide (yieldValue st.genomicSelectionEnabled b ≤
        yieldValue st.genomicSelectionEnabled a))
      (((POPULATION_SIZE : ℚ) * st.selectionIntensity).ceil.toNat)
      (by intro a b c h1 h2; simp only [decide_eq_true_eq] at *; linarith)
      (by intro a b; simp only [Bool.or_eq_true, decide_eq_true_eq]; exact le_total _ _)
      hnd hc
    refine ⟨hspec.1, ?_, rfl, rfl, rfl, rfl⟩
    intro p hp hpin q hq hqout
    have hle := hspec.2 p hp hpin q hq hqout
    simp only [decide_eq_true_eq] at hle
    exact hle
  | resistance =>
    have hspec := mergeSort_select_spec st.population
      (fun a b => decide (resistanceValue st.genomicSelectionEnabled b ≤
        resistanceValue st.genomicSelectionEnabled a))
      (((POPULATION_SIZE : ℚ) * st.selectionIntensity).ceil.toNat)
      (by intro a b c h1 h2; simp only [decide_eq_true_eq] at *; linarith)
      (by intro a b; simp only [Bool.or_eq_true, decide_eq_true_eq]; exact le_total _ _)
      hnd hc
    refine ⟨hspec.1, ?_, rfl, rfl, rfl, rfl⟩
    intro p hp hpin q hq hqout
    have hle := hspec.2 p hp hpin q hq hqout
    simp only [decide_eq_true_eq] at hle
    exact hle
  | height =>
    have hspec := mergeSort_select_spec st.population
      (fun a b => decide (heightValue st.genomicSelectionEnabled a ≤
        heightValue st.genomicSelectionEnabled b))
      (((POPULATION_SIZE : ℚ) * st.selectionIntensity).ceil.toNat)
      (by intro a b c h1 h2; simp only [decide_eq_true_eq] at *; linarith)
      (by intro a b; simp only [Bool.or_eq_true, decide_eq_true_eq]; exact le_total _ _)
      hnd hc
    refine ⟨hspec.1, ?_, rfl, rfl, rfl, rfl⟩
    intro p hp hpin q hq hqout
    have hle := hspec.2 p hp hpin q hq hqout
    simp only [decide_eq_true_eq] at hle
    exact hle
  | optimum =>
    have hspec := mergeSort_select_spec st.population
      (fun a b => decide (optimumIndex st.genomicSelectionEnabled b ≤
        optimumIndex st.genomicSelectionEnabled a))
      (((POPULATION_SIZE : ℚ) * st.selectionIntensity).ceil.toNat)
      (by intro a b c h1 h2; simp only [decide_eq_true_eq] at *; linarith)
      (by intro a b; simp only [Bool.or_eq_true, decide_eq_true_eq]; exact le_total _ _)
      hnd hc
    refine ⟨hspec.1, ?_, rfl, rfl, rfl, rfl⟩
    intro p hp hpin q hq hqout
    have hle := hspec.2 p hp hpin q hq hqout
    simp only [decide_eq_true_eq] at hle
    exact hle

def stSel : AppState := { stW with selectionIntensity := 1 / 32 }

/-- Witness for C9: on a concrete 2-plant state with intensity 1/32
(a target of 2 plants) the yield auto-selection has the stated shape. -/
theorem autoSelectByTrait_selects_best_witness :
    (autoSelectByTrait stSel SelTrait.yield).selectedIds.card =
      ((POPULATION_SIZE : ℚ) * stSel.selectionIntensity).ceil.toNat ∧
    (∀ p ∈ stSel.population, p.id ∈ (autoSelectByTrait stSel SelTrait.yield).selectedIds →
      ∀ q ∈ stSel.population, q.id ∉ (autoSelectByTrait stSel SelTrait.yield).selectedIds →
        ranksAtLeast stSel.genomicSelectionEnabled SelTrait.yield p q) ∧
    (autoSelectByTrait stSel SelTrait.yield).population = stSel.population ∧
    (autoSelectByTrait stSel SelTrait.yield).history = stSel.history ∧
    (autoSelectByTrait stSel SelTrait.yield).generation = stSel.generation ∧
    (autoSelectByTrait stSel SelTrait.yield).envVariance = stSel.envVariance :=
  autoSelectByTrait_selects_best stSel SelTrait.yield (by decide)
    (by norm_num [Rat.ceil, POPULATION_SIZE, stSel, stW])
